import Mathlib

/-!
Verification of the pixian-ai Python client SDK against its design document.

The development shallowly embeds the two source modules:

* pixian_ai/utils.py : the validators param_exists, validate_param,
  validate_hex, validate_css, validate_wh.  The regular expressions of the
  last three are embedded as Mathlib RegularExpression values over Char, and
  the validators run the executable matcher (RegularExpression.rmatch).
  Character classes are modelled over their ASCII members.
* pixian_ai/client.py : PixianAIException, PixianAIResponse, and
  PixianAI.remove_background.  The HTTP transport is a parameter: a function
  from the built request to a response, so that stub transports can be
  supplied.  Python dictionaries appear as association lists in insertion
  order (an update with a fresh key appends it at the end, as in CPython).
  Bytes appear as lists of naturals; the enforce_types decorator corresponds
  to the static types of the Lean definitions.

Python semantics that matter here and are modelled explicitly:

* truthiness: an empty string, None and the integer 0 are falsy;
* re.match with a pattern anchored by a dollar sign: the dollar matches at
  the end of the string, and also just before one trailing newline;
* re.fullmatch: the whole string must match, with no newline allowance.
-/

open RegularExpression

/-- A Python value as it occurs in the validated parameters and in the
request data dictionary: None, a bool, an int or a str. -/
inductive PyVal where
  | none : PyVal
  | bool : Bool → PyVal
  | int : Int → PyVal
  | str : String → PyVal
deriving DecidableEq, Repr

/-- Python truthiness restricted to the values of PyVal: None is falsy, a
bool is itself, an int is truthy when nonzero, a str when nonempty. -/
def PyVal.truthy : PyVal → Bool
  | .none => false
  | .bool b => b
  | .int n => n != 0
  | .str s => s != ""

/-- Python str() of a PyVal, used in validator error messages. -/
def PyVal.pyStr : PyVal → String
  | .none => "None"
  | .bool b => if b then "True" else "False"
  | .int n => toString n
  | .str s => s

/-- The errors the library raises: ValueError from the validators,
TypeError from comparing incomparable values, and PixianAIException
(client.py, lines 15-25) carrying the message of a failed remote call. -/
inductive PyError where
  | valueError : String → PyError
  | typeError : String → PyError
  | pixianAIException : String → PyError
deriving DecidableEq, Repr

/-- Equality of call results is decidable, so that concrete runs can be
checked by evaluation. -/
instance {ε α : Type} [DecidableEq ε] [DecidableEq α] :
    DecidableEq (Except ε α) := fun x y =>
  match x, y with
  | .ok a, .ok b =>
    if h : a = b then .isTrue (by rw [h])
    else .isFalse (fun hh => h (Except.ok.inj hh))
  | .error e, .error f =>
    if h : e = f then .isTrue (by rw [h])
    else .isFalse (fun hh => h (Except.error.inj hh))
  | .ok _, .error _ => .isFalse (fun hh => Except.noConfusion hh)
  | .error _, .ok _ => .isFalse (fun hh => Except.noConfusion hh)

/-- utils.py, lines 39-51.  Raises ValueError when no parameter of the list
is truthy; the message joins the parameter names with a comma. -/
def param_exists (names : List String) (params : List PyVal) :
    Except PyError Unit :=
  if params.any PyVal.truthy then .ok ()
  else .error (.valueError
    ("Either " ++ String.intercalate ", " names ++ " must be provided"))

/-- The options argument of validate_param: a two element tuple standing
for an inclusive numeric range, or a list of allowed literal values. -/
inductive Options where
  | range : Int → Int → Options
  | choices : List PyVal → Options

/-- utils.py, lines 54-87.  For a two element tuple, the check is
`param and not (start <= param <= end)`: a falsy param short-circuits and
passes; a truthy non-numeric param would fail the chained comparison with a
TypeError (this branch is never reached by client.py).  For a list, the
check is membership. -/
def validate_param (name : String) (param : PyVal) (options : Options) :
    Except PyError Unit :=
  match options with
  | .range start stop =>
    if param.truthy then
      match param with
      | .int n =>
        if start ≤ n ∧ n ≤ stop then .ok ()
        else .error (.valueError ("Invalid value: " ++ name ++
          ". Valid range is: " ++ toString start ++ " to " ++ toString stop))
      | .bool _ =>
        -- Python bools are ints; a truthy bool is 1.
        if start ≤ 1 ∧ 1 ≤ stop then .ok ()
        else .error (.valueError ("Invalid value: " ++ name ++
          ". Valid range is: " ++ toString start ++ " to " ++ toString stop))
      | _ => .error (.typeError
        ("unsupported chained comparison for " ++ name))
    else .ok ()
  | .choices opts =>
    if param ∈ opts then .ok ()
    else .error (.valueError ("Invalid value: " ++ name ++
      ". Valid options are: " ++
      String.intercalate ", " (opts.map PyVal.pyStr)))

/-- A character class regular expression: the sum of the single characters
of the list. -/
def ofClass (cs : List Char) : RegularExpression Char :=
  cs.foldr (fun c r => char c + r) 0

/-- The ASCII decimal digits: the characters the regex class \d denotes
here. -/
def digitChars : List Char :=
  ['0', '1', '2', '3', '4', '5', '6', '7', '8', '9']

/-- The characters of the regex class [0-9a-fA-F]. -/
def hexChars : List Char :=
  digitChars ++ ['a', 'b', 'c', 'd', 'e', 'f', 'A', 'B', 'C', 'D', 'E', 'F']

/-- The ASCII whitespace characters the regex class \s denotes here. -/
def wsChars : List Char :=
  [' ', '\t', '\n', '\x0b', '\x0c', '\r']

/-- One or more repetitions of a regular expression, the regex plus
operator: r followed by star r. -/
def rep1 (r : RegularExpression Char) : RegularExpression Char :=
  r * star r

/-- Zero to three repetitions of a regular expression, the regex
quantifier of the form braces zero comma three. -/
def rep03 (r : RegularExpression Char) : RegularExpression Char :=
  1 + r * (1 + r * (1 + r))

/-- utils.py, line 101: the regex of validate_hex, a hash sign followed by
exactly six characters of the class [0-9a-fA-F]. -/
def hexRegex : RegularExpression Char :=
  char '#' * (ofClass hexChars * (ofClass hexChars * (ofClass hexChars *
    (ofClass hexChars * (ofClass hexChars * ofClass hexChars)))))

/-- Python re.match of a pattern of the form caret P dollar against s.
The caret and re.match anchor at the start; the dollar matches at the end
of the string or just before one trailing newline, so the call succeeds
when P matches all of s, or when s ends in a newline and P matches all of
s but that newline. -/
def pyMatchAnchored (r : RegularExpression Char) (s : String) : Bool :=
  r.rmatch s.data ||
    (s.data.getLast? == some '\n' && r.rmatch s.data.dropLast)

/-- utils.py, lines 90-103.  Compiles the pattern anchored with caret and
dollar and calls re.match; raises ValueError when the match fails. -/
def validate_hex (name : String) (color : String) : Except PyError Unit :=
  if pyMatchAnchored hexRegex color then .ok ()
  else .error (.valueError ("Invalid value: " ++ name ++
    ". Hex color code provided: " ++ color))

/-- The token alternation of the validate_css regex: digits dot digits
percent, or digits px. -/
def cssTok : RegularExpression Char :=
  rep1 (ofClass digitChars) * (char '.' * (rep1 (ofClass digitChars) *
    char '%')) +
  rep1 (ofClass digitChars) * (char 'p' * char 'x')

/-- One or more whitespace characters, the regex \s+. -/
def wsSep : RegularExpression Char :=
  rep1 (ofClass wsChars)

/-- utils.py, line 116: the regex of validate_css, a token followed by
zero to three groups of whitespace and a token. -/
def cssRegex : RegularExpression Char :=
  cssTok * rep03 (wsSep * cssTok)

/-- utils.py, lines 106-118.  Calls re.fullmatch: the whole string must
match; raises ValueError when the match fails. -/
def validate_css (name : String) (css : String) : Except PyError Unit :=
  if cssRegex.rmatch css.data then .ok ()
  else .error (.valueError ("Invalid value: " ++ name ++
    ". CSS size provided: " ++ css))

/-- utils.py, line 131: the regex of validate_wh, digits with an optional
fraction, whitespace, digits with an optional fraction. -/
def whRegex : RegularExpression Char :=
  (rep1 (ofClass digitChars) * (1 + char '.' * rep1 (ofClass digitChars))) *
    (wsSep * (rep1 (ofClass digitChars) *
      (1 + char '.' * rep1 (ofClass digitChars))))

/-- utils.py, lines 121-133.  Calls re.fullmatch; raises ValueError when
the match fails. -/
def validate_wh (name : String) (wh : String) : Except PyError Unit :=
  if whRegex.rmatch wh.data then .ok ()
  else .error (.valueError ("Invalid value: " ++ name ++
    ". Width height provided: " ++ wh))

/-- client.py, lines 75-101.  The client holds the credential pair and
nothing else; named PixianAI as in the source. -/
structure PixianAI where
  api_id : String
  api_secret : String
deriving DecidableEq, Repr

/-- client.py, lines 28-62.  The success wrapper around the raw response
bytes (bytes modelled as lists of naturals). -/
structure PixianAIResponse where
  content : List Nat
deriving DecidableEq, Repr

/-- The arguments of remove_background with their defaults,
client.py, lines 104-117.  Optional[str] parameters are Option String. -/
structure RBArgs where
  image_path : String := ""
  image_base64 : String := ""
  image_url : String := ""
  max_pixels : Int := 25000000
  background_color : Option String := Option.none
  result_crop_to_foreground : Bool := false
  result_margin : String := "0px"
  result_target_size : Option String := Option.none
  result_vertical_alignment : String := "middle"
  output_format : String := "auto"
  output_jpeg_quality : Int := 75
deriving DecidableEq, Repr

/-- The HTTP POST issued at client.py, lines 208-210: the URL, the data
dictionary as an association list in insertion order, the files dictionary
(the file attachment is recorded by the path it was opened from), and the
basic-auth pair. -/
structure HttpRequest where
  url : String
  data : List (String × PyVal)
  files : List (String × String)
  auth : String × String
deriving DecidableEq, Repr

/-- An HTTP response as remove_background reads it: status_code, text (the
decoded body) and content (the raw body bytes). -/
structure HttpResponse where
  status_code : Int
  text : String
  content : List Nat
deriving DecidableEq, Repr

/-- The stubbed transport: what requests.post does, as a function from the
request to the response.  Transport failures (DNS, TLS) propagate as
exceptions of the requests library itself and are outside this model. -/
def Transport : Type := HttpRequest → HttpResponse

/-- requests.codes.ok is the integer 200. -/
def requestsCodesOk : Int := 200

/-- client.py, lines 164-186: the validator sequence of remove_background,
in source order; a statement that raises stops the sequence, which the
explicit bind chain renders.  The background_color and result_target_size
validators run only when the value is truthy (a non-None, nonempty
string). -/
def validations (a : RBArgs) : Except PyError Unit :=
  (param_exists
    ["image_path", "image_base64", "image_url"]
    [.str a.image_path, .str a.image_base64, .str a.image_url]).bind fun _ =>
  (validate_param "max_pixels" (.int a.max_pixels)
    (.range 100 25000000)).bind fun _ =>
  (match a.background_color with
    | some c => if c != "" then validate_hex "background_color" c else .ok ()
    | Option.none => .ok ()).bind fun _ =>
  (validate_param "result_crop_to_foreground"
    (.bool a.result_crop_to_foreground)
    (.choices [.bool true, .bool false])).bind fun _ =>
  (validate_css "result_margin" a.result_margin).bind fun _ =>
  (match a.result_target_size with
    | some s => if s != "" then validate_wh "result_target_size" s else .ok ()
    | Option.none => .ok ()).bind fun _ =>
  (validate_param "result_vertical_alignment"
    (.str a.result_vertical_alignment)
    (.choices [.str "top", .str "middle", .str "bottom"])).bind fun _ =>
  (validate_param "output_format" (.str a.output_format)
    (.choices [.str "auto", .str "png", .str "jpeg", .str "delta_png"])).bind
      fun _ =>
  validate_param "output_jpeg_quality" (.int a.output_jpeg_quality)
    (.range 1 100)

/-- client.py, lines 190-199: the data dictionary as first assembled, its
keys in insertion order. -/
def mkData (a : RBArgs) : List (String × PyVal) :=
  [("max_pixels", .int a.max_pixels),
   ("background.color",
     match a.background_color with
     | some c => .str c
     | Option.none => .none),
   ("result.crop_to_foreground", .bool a.result_crop_to_foreground),
   ("result.margin", .str a.result_margin),
   ("result.target_size",
     match a.result_target_size with
     | some s => .str s
     | Option.none => .none),
   ("result.vertical_alignment", .str a.result_vertical_alignment),
   ("output.format", .str a.output_format),
   ("output.jpeg_quality", .int a.output_jpeg_quality)]

/-- The API endpoint, client.py, line 188. -/
def apiUrl : String := "https://api.pixian.ai/api/v2/remove-background"

/-- client.py, lines 188-210: the request as handed to requests.post.
Lines 201-206: when image_path is truthy the files dictionary carries the
opened file; otherwise, when image_base64 is truthy, the data dictionary
gains the key image.base64; otherwise, when image_url is truthy, it gains
image.url. -/
def mkRequest (cl : PixianAI) (a : RBArgs) : HttpRequest :=
  if a.image_path != "" then
    { url := apiUrl, data := mkData a,
      files := [("image", a.image_path)],
      auth := (cl.api_id, cl.api_secret) }
  else if a.image_base64 != "" then
    { url := apiUrl, data := mkData a ++ [("image.base64", .str a.image_base64)],
      files := [], auth := (cl.api_id, cl.api_secret) }
  else if a.image_url != "" then
    { url := apiUrl, data := mkData a ++ [("image.url", .str a.image_url)],
      files := [], auth := (cl.api_id, cl.api_secret) }
  else
    { url := apiUrl, data := mkData a, files := [],
      auth := (cl.api_id, cl.api_secret) }

/-- The validated request remove_background transmits: the validator
sequence, then the assembled request. -/
def buildRequest (cl : PixianAI) (a : RBArgs) : Except PyError HttpRequest :=
  match validations a with
  | .error e => .error e
  | .ok () => .ok (mkRequest cl a)

/-- client.py, lines 212-215: a response whose status code is not
requests.codes.ok raises PixianAIException carrying response.text; a 200
response becomes a PixianAIResponse around response.content. -/
def handleResponse (r : HttpResponse) : Except PyError PixianAIResponse :=
  if !(r.status_code == requestsCodesOk) then
    .error (.pixianAIException r.text)
  else .ok ⟨r.content⟩

/-- client.py, lines 104-215: the whole of remove_background over a
stubbed transport.  Validation runs first; only when it passes is the
request built, the transport consulted, and the response mapped. -/
def remove_background (cl : PixianAI) (a : RBArgs) (t : Transport) :
    Except PyError PixianAIResponse :=
  match validations a with
  | .error e => .error e
  | .ok () => handleResponse (t (mkRequest cl a))

/-- A file system state: each path maps to the byte content of the file
there, or to nothing when no file exists at that path. -/
def FileSystem : Type := String → Option (List Nat)

/-- client.py, lines 64-72: PixianAIResponse.save opens the path in mode
wb, which creates the file or truncates an existing one, and writes the
content; the resulting file system maps the path to the content. -/
def PixianAIResponse.save (r : PixianAIResponse) (fp : String)
    (fs : FileSystem) : FileSystem :=
  fun p => if p = fp then some r.content else fs p

/-- Reading a file back from the file system state. -/
def readFile (fs : FileSystem) (p : String) : Option (List Nat) := fs p

/-- Whether a key occurs in a data dictionary. -/
def hasKey (k : String) (d : List (String × PyVal)) : Bool :=
  d.any (fun p => p.1 == k)

/-- The bytes of an ASCII string literal, for writing concrete byte
bodies such as b"ok-bytes". -/
def strBytes (s : String) : List Nat :=
  s.data.map Char.toNat

/-- A string names a field when the field occurs in it verbatim. -/
def mentions (field msg : String) : Prop :=
  ∃ u v, msg = u ++ field ++ v

/-- At least one of the three image-source arguments is a nonempty
string. -/
def sourcesPresent (a : RBArgs) : Prop :=
  a.image_path ≠ "" ∨ a.image_base64 ≠ "" ∨ a.image_url ≠ ""

/-- How many of the three image-source arguments are nonempty. -/
def numSources (a : RBArgs) : Nat :=
  (if a.image_path ≠ "" then 1 else 0) +
  (if a.image_base64 ≠ "" then 1 else 0) +
  (if a.image_url ≠ "" then 1 else 0)

/-- Every validator of remove_background other than the image-source check
and the max_pixels range accepts its argument.  The optional
background_color and result_target_size validators are constrained only
when they would run, that is on a truthy value. -/
def otherFieldsPass (a : RBArgs) : Prop :=
  (∀ c, a.background_color = some c → c ≠ "" →
    validate_hex "background_color" c = .ok ())
  ∧ validate_css "result_margin" a.result_margin = .ok ()
  ∧ (∀ s, a.result_target_size = some s → s ≠ "" →
    validate_wh "result_target_size" s = .ok ())
  ∧ validate_param "result_vertical_alignment"
      (.str a.result_vertical_alignment)
      (.choices [.str "top", .str "middle", .str "bottom"]) = .ok ()
  ∧ validate_param "output_format" (.str a.output_format)
      (.choices [.str "auto", .str "png", .str "jpeg", .str "delta_png"]) =
      .ok ()
  ∧ validate_param "output_jpeg_quality" (.int a.output_jpeg_quality)
      (.range 1 100) = .ok ()

/-- Every validator of remove_background other than the image-source check
accepts its argument. -/
def fieldValidationsPass (a : RBArgs) : Prop :=
  validate_param "max_pixels" (.int a.max_pixels)
    (.range 100 25000000) = .ok ()
  ∧ otherFieldsPass a

/-- The grammar the design document states for validate_hex: a hash sign
followed by exactly six hexadecimal digits, case ignored.  Stated over the
character list of the string. -/
def hexSpecL (cs : List Char) : Bool :=
  match cs with
  | c :: rest =>
      c == '#' && (rest.length == 6 &&
        rest.all (fun d => hexChars.contains d))
  | [] => false

/-- The token grammar the design document states for validate_css: an
integer (one or more decimal digits) followed by px, or a decimal number
(digits, a point, digits) followed by a percent sign. -/
def CssTokenSpec (t : List Char) : Prop :=
  (∃ ds, ds ≠ [] ∧ (∀ c ∈ ds, c ∈ digitChars) ∧ t = ds ++ ['p', 'x'])
  ∨ (∃ ds1 ds2, ds1 ≠ [] ∧ ds2 ≠ [] ∧
      (∀ c ∈ ds1, c ∈ digitChars) ∧ (∀ c ∈ ds2, c ∈ digitChars) ∧
      t = ds1 ++ '.' :: (ds2 ++ ['%']))

/-- A list of characters that is n tokens of the validate_css token
grammar, consecutive tokens separated by one or more whitespace
characters, nothing before the first token or after the last. -/
inductive CssTokens : Nat → List Char → Prop where
  | single (t : List Char) : CssTokenSpec t → CssTokens 1 t
  | cons (t g rest : List Char) (n : Nat) :
      CssTokenSpec t → g ≠ [] → (∀ c ∈ g, c ∈ wsChars) →
      CssTokens n rest → CssTokens (n + 1) (t ++ (g ++ rest))

/-- The grammar the design document states for validate_css: one to four
whitespace-separated tokens. -/
def CssSpec (s : String) : Prop :=
  ∃ n, 1 ≤ n ∧ n ≤ 4 ∧ CssTokens n s.data

theorem param_exists_sources_ok (a : RBArgs) (h : sourcesPresent a) :
    param_exists ["image_path", "image_base64", "image_url"]
      [.str a.image_path, .str a.image_base64, .str a.image_url] = .ok () := by
  rcases h with h | h | h <;>
    simp [param_exists, PyVal.truthy, h]

theorem validate_crop_ok (b : Bool) :
    validate_param "result_crop_to_foreground" (.bool b)
      (.choices [.bool true, .bool false]) = .ok () := by
  cases b <;> rfl

theorem validations_ok (a : RBArgs) (hsrc : sourcesPresent a)
    (hmp : validate_param "max_pixels" (.int a.max_pixels)
      (.range 100 25000000) = .ok ())
    (hof : otherFieldsPass a) : validations a = .ok () := by
  obtain ⟨hbg, hcss, hwh, hva, hofo, hjq⟩ := hof
  unfold validations
  rw [param_exists_sources_ok a hsrc, hmp, hcss, hva, hofo, hjq,
    validate_crop_ok]
  rcases hb : a.background_color with _ | c
  · rcases ht : a.result_target_size with _ | s
    · rfl
    · by_cases hs : s = "" <;> simp [hs, hwh s ht, Except.bind]
  · rcases ht : a.result_target_size with _ | s
    · by_cases hc : c = "" <;> simp [hc, hbg c hb, Except.bind]
    · by_cases hc : c = "" <;> by_cases hs : s = "" <;>
        simp [hc, hs, hbg c hb, hwh s ht, Except.bind]

theorem validations_err_maxpixels (a : RBArgs) (hsrc : sourcesPresent a)
    (e : PyError)
    (hmp : validate_param "max_pixels" (.int a.max_pixels)
      (.range 100 25000000) = .error e) :
    validations a = .error e := by
  unfold validations
  rw [param_exists_sources_ok a hsrc, hmp]
  rfl

theorem buildRequest_ok_iff (cl : PixianAI) (a : RBArgs) (req : HttpRequest) :
    buildRequest cl a = .ok req ↔
      validations a = .ok () ∧ req = mkRequest cl a := by
  unfold buildRequest
  cases hv : validations a with
  | error e => simp
  | ok u => cases u; simp [eq_comm]

theorem remove_background_of_validations_ok (cl : PixianAI) (a : RBArgs)
    (t : Transport) (hv : validations a = .ok ()) :
    remove_background cl a t = handleResponse (t (mkRequest cl a)) := by
  unfold remove_background; rw [hv]

theorem remove_background_of_validations_err (cl : PixianAI) (a : RBArgs)
    (t : Transport) (e : PyError) (hv : validations a = .error e) :
    remove_background cl a t = .error e := by
  unfold remove_background; rw [hv]

theorem remote_error_text (cl : PixianAI) (a : RBArgs) (t : Transport)
    (req : HttpRequest) (hreq : buildRequest cl a = .ok req)
    (hst : (t req).status_code ≠ 200) :
    remove_background cl a t = .error (.pixianAIException (t req).text) := by
  obtain ⟨hv, hre⟩ := (buildRequest_ok_iff cl a req).mp hreq
  subst hre
  rw [remove_background_of_validations_ok cl a t hv]
  simp [handleResponse, requestsCodesOk, hst]

theorem numSources_sourcesPresent (a : RBArgs) (h : 1 ≤ numSources a) :
    sourcesPresent a := by
  unfold numSources at h
  unfold sourcesPresent
  split_ifs at h with h1 h2 h3 <;> simp_all

/-- C1: with all three image-source arguments empty, remove_background
fails, for every transport, with the ValueError whose message names
image_path, image_base64 and image_url; the result does not depend on the
transport, so the error is raised before any HTTP request is issued. -/
theorem C1_empty_sources_error (cl : PixianAI) (a : RBArgs) (t : Transport)
    (hp : a.image_path = "") (hb : a.image_base64 = "") (hu : a.image_url = "") :
    remove_background cl a t =
      .error (.valueError
        "Either image_path, image_base64, image_url must be provided")
    ∧ mentions "image_path"
        "Either image_path, image_base64, image_url must be provided"
    ∧ mentions "image_base64"
        "Either image_path, image_base64, image_url must be provided"
    ∧ mentions "image_url"
        "Either image_path, image_base64, image_url must be provided" := by
  refine ⟨?_,
    ⟨"Either ", ", image_base64, image_url must be provided", rfl⟩,
    ⟨"Either image_path, ", ", image_url must be provided", rfl⟩,
    ⟨"Either image_path, image_base64, ", " must be provided", rfl⟩⟩
  have hv : validations a = .error (.valueError
      "Either image_path, image_base64, image_url must be provided") := by
    unfold validations
    rw [hp, hb, hu]
    rfl
  exact remove_background_of_validations_err cl a t _ hv

theorem C1_witness_thm :
    remove_background ⟨"id", "secret"⟩ {} (fun _ => ⟨200, "", []⟩) =
      .error (.valueError
        "Either image_path, image_base64, image_url must be provided") :=
  (C1_empty_sources_error ⟨"id", "secret"⟩ {} (fun _ => ⟨200, "", []⟩)
    rfl rfl rfl).1

/-- C3: holding the other inputs valid and at least one source present,
remove_background fails with the max_pixels range ValueError when
max_pixels is 99 or 25000001, and passes validation, reaching the HTTP
call, when max_pixels is 100 or 25000000: the bounds are inclusive. -/
theorem C3_max_pixels_range (cl : PixianAI) (a : RBArgs) (t : Transport)
    (hsrc : sourcesPresent a) (hof : otherFieldsPass a) :
    ((a.max_pixels = 99 ∨ a.max_pixels = 25000001) →
      remove_background cl a t =
        .error (.valueError
          "Invalid value: max_pixels. Valid range is: 100 to 25000000"))
    ∧ ((a.max_pixels = 100 ∨ a.max_pixels = 25000000) →
      buildRequest cl a = .ok (mkRequest cl a)
      ∧ remove_background cl a t = handleResponse (t (mkRequest cl a))) := by
  constructor
  · intro h
    have herr : validate_param "max_pixels" (.int a.max_pixels)
        (.range 100 25000000) = .error (.valueError
          "Invalid value: max_pixels. Valid range is: 100 to 25000000") := by
      rcases h with h | h <;> rw [h] <;> rfl
    exact remove_background_of_validations_err cl a t _
      (validations_err_maxpixels a hsrc _ herr)
  · intro h
    have hmp : validate_param "max_pixels" (.int a.max_pixels)
        (.range 100 25000000) = .ok () := by
      rcases h with h | h <;> rw [h] <;> rfl
    have hv := validations_ok a hsrc hmp hof
    exact ⟨(buildRequest_ok_iff cl a _).mpr ⟨hv, rfl⟩,
      remove_background_of_validations_ok cl a t hv⟩

theorem C3_witness_thm :
    remove_background ⟨"id", "secret"⟩
      { image_path := "photo.jpg", max_pixels := 99 }
      (fun _ => ⟨200, "", []⟩) =
      .error (.valueError
        "Invalid value: max_pixels. Valid range is: 100 to 25000000") :=
  (C3_max_pixels_range ⟨"id", "secret"⟩
      { image_path := "photo.jpg", max_pixels := 99 } (fun _ => ⟨200, "", []⟩)
      (Or.inl (by decide))
      ⟨(fun c h => nomatch h), rfl, (fun s h => nomatch h), rfl, rfl, rfl⟩).1
    (Or.inl rfl)

/-- C4: a falsy int (for Python ints, exactly 0) passes validate_param
against every two-element range without raising; in particular
remove_background with output_jpeg_quality 0 passes the range check of 1
to 100 and reaches the HTTP call. -/
theorem C4_falsy_bypasses_range (name : String) (start stop : Int) (n : Int)
    (hn : (PyVal.int n).truthy = false) (cl : PixianAI) (t : Transport) :
    validate_param name (.int n) (.range start stop) = .ok ()
    ∧ buildRequest cl { image_path := "photo.jpg", output_jpeg_quality := 0 } =
        .ok (mkRequest cl { image_path := "photo.jpg", output_jpeg_quality := 0 })
    ∧ remove_background cl
        { image_path := "photo.jpg", output_jpeg_quality := 0 } t =
        handleResponse
          (t (mkRequest cl { image_path := "photo.jpg", output_jpeg_quality := 0 })) := by
  refine ⟨?_, rfl, rfl⟩
  unfold validate_param
  rw [hn]
  simp

theorem C4_witness_thm :
    validate_param "output_jpeg_quality" (.int 0) (.range 1 100) = .ok () :=
  (C4_falsy_bypasses_range "output_jpeg_quality" 1 100 0 rfl ⟨"id", "secret"⟩
    (fun _ => ⟨200, "", []⟩)).1

/-- C7: when validation passes and the transport answers with a status
other than 200, remove_background raises PixianAIException whose message
is exactly the response body text. -/
theorem C7_remote_error_verbatim (cl : PixianAI) (a : RBArgs) (t : Transport)
    (req : HttpRequest) (hreq : buildRequest cl a = .ok req)
    (hst : (t req).status_code ≠ 200) :
    remove_background cl a t = .error (.pixianAIException (t req).text) :=
  remote_error_text cl a t req hreq hst

theorem C7_witness_thm :
    remove_background ⟨"id", "secret"⟩ { image_path := "photo.jpg" }
      (fun _ => ⟨400, "bad request", []⟩) =
      .error (.pixianAIException "bad request") :=
  C7_remote_error_verbatim ⟨"id", "secret"⟩ { image_path := "photo.jpg" }
    (fun _ => ⟨400, "bad request", []⟩)
    (mkRequest ⟨"id", "secret"⟩ { image_path := "photo.jpg" }) rfl
    (by decide)

/-- C8: with image_path photo.jpg, every other argument at its default and
a stub transport answering 200 with body ok-bytes, the result's byte
payload is exactly those bytes, and the transmitted payload carries
max_pixels 25000000 and result.margin 0px, with the file attachment from
the path. -/
theorem C8_happy_path_defaults :
    (∃ req,
      buildRequest ⟨"api-id", "api-secret"⟩ { image_path := "photo.jpg" } =
        .ok req
      ∧ req.data.lookup "max_pixels" = some (.int 25000000)
      ∧ req.data.lookup "result.margin" = some (.str "0px")
      ∧ req.files = [("image", "photo.jpg")])
    ∧ remove_background ⟨"api-id", "api-secret"⟩ { image_path := "photo.jpg" }
        (fun _ => ⟨200, "", strBytes "ok-bytes"⟩) =
        .ok ⟨strBytes "ok-bytes"⟩ :=
  ⟨⟨mkRequest ⟨"api-id", "api-secret"⟩ { image_path := "photo.jpg" },
    rfl, rfl, rfl, rfl⟩, rfl⟩

/-- C9: for every byte payload and path, saving the response at the path
and reading the path back yields exactly the payload: when no file existed
there it is created, when one existed it is overwritten whatever it held,
and no other path is touched. -/
theorem C9_save_roundtrip (b : List Nat) (p : String) (fs : FileSystem) :
    readFile (PixianAIResponse.save ⟨b⟩ p fs) p = some b
    ∧ (fs p = Option.none →
        readFile (PixianAIResponse.save ⟨b⟩ p fs) p = some b)
    ∧ (∀ old, fs p = some old →
        readFile (PixianAIResponse.save ⟨b⟩ p fs) p = some b)
    ∧ (∀ q, q ≠ p → readFile (PixianAIResponse.save ⟨b⟩ p fs) q = fs q) := by
  refine ⟨?_, fun _ => ?_, fun old _ => ?_, fun q hq => ?_⟩ <;>
    simp [readFile, PixianAIResponse.save, *]

/-- C10: only status 200 counts as success: every other status, 201 and
204 included, makes remove_background raise PixianAIException instead of
returning a result. -/
theorem C10_only_200_success (cl : PixianAI) (a : RBArgs) (t : Transport)
    (req : HttpRequest) (hreq : buildRequest cl a = .ok req)
    (hst : (t req).status_code ≠ 200) :
    ∃ m, remove_background cl a t = .error (.pixianAIException m) :=
  ⟨(t req).text, remote_error_text cl a t req hreq hst⟩

theorem C10_witness_thm :
    (∃ m, remove_background ⟨"id", "secret"⟩ { image_path := "photo.jpg" }
      (fun _ => ⟨201, "created", []⟩) = .error (.pixianAIException m))
    ∧ (∃ m, remove_background ⟨"id", "secret"⟩ { image_path := "photo.jpg" }
      (fun _ => ⟨204, "", []⟩) = .error (.pixianAIException m)) :=
  ⟨C10_only_200_success ⟨"id", "secret"⟩ { image_path := "photo.jpg" }
      (fun _ => ⟨201, "created", []⟩)
      (mkRequest ⟨"id", "secret"⟩ { image_path := "photo.jpg" }) rfl (by decide),
   C10_only_200_success ⟨"id", "secret"⟩ { image_path := "photo.jpg" }
      (fun _ => ⟨204, "", []⟩)
      (mkRequest ⟨"id", "secret"⟩ { image_path := "photo.jpg" }) rfl (by decide)⟩

/-- C2: when every field validator passes and two or more image sources
are supplied, no mutual-exclusivity error is raised: the request is built,
and the source used follows the precedence path, then base64, then URL; a
path sends a file attachment and neither image.base64 nor image.url
appears in the payload; otherwise a base64 value is carried in
image.base64, and only when both are empty is image.url carried. -/
theorem C2_source_precedence (cl : PixianAI) (a : RBArgs)
    (hf : fieldValidationsPass a) (hmulti : 2 ≤ numSources a) :
    buildRequest cl a = .ok (mkRequest cl a)
    ∧ (a.image_path ≠ "" →
        (mkRequest cl a).files = [("image", a.image_path)]
        ∧ hasKey "image.base64" (mkRequest cl a).data = false
        ∧ hasKey "image.url" (mkRequest cl a).data = false)
    ∧ (a.image_path = "" → a.image_base64 ≠ "" →
        (mkRequest cl a).files = []
        ∧ (mkRequest cl a).data.lookup "image.base64" =
            some (.str a.image_base64)
        ∧ hasKey "image.url" (mkRequest cl a).data = false)
    ∧ (a.image_path = "" → a.image_base64 = "" → a.image_url ≠ "" →
        (mkRequest cl a).files = []
        ∧ (mkRequest cl a).data.lookup "image.url" = some (.str a.image_url)
        ∧ hasKey "image.base64" (mkRequest cl a).data = false) := by
  obtain ⟨hmp, hof⟩ := hf
  have hsrc := numSources_sourcesPresent a (le_trans (by norm_num) hmulti)
  refine ⟨(buildRequest_ok_iff cl a _).mpr
    ⟨validations_ok a hsrc hmp hof, rfl⟩, ?_, ?_, ?_⟩
  · intro hp
    have e1 : (a.image_path != "") = true := bne_iff_ne.mpr hp
    have hm : mkRequest cl a =
        { url := apiUrl, data := mkData a,
          files := [("image", a.image_path)],
          auth := (cl.api_id, cl.api_secret) } := by
      unfold mkRequest; rw [if_pos e1]
    rw [hm]
    exact ⟨rfl, rfl, rfl⟩
  · intro hp hb
    have e1 : (a.image_path != "") = false := by simp [hp]
    have e2 : (a.image_base64 != "") = true := bne_iff_ne.mpr hb
    have hm : mkRequest cl a =
        { url := apiUrl,
          data := mkData a ++ [("image.base64", .str a.image_base64)],
          files := [], auth := (cl.api_id, cl.api_secret) } := by
      unfold mkRequest; rw [e1, e2]; simp
    rw [hm]
    exact ⟨rfl, rfl, rfl⟩
  · intro hp hb hu
    have e1 : (a.image_path != "") = false := by simp [hp]
    have e2 : (a.image_base64 != "") = false := by simp [hb]
    have e3 : (a.image_url != "") = true := bne_iff_ne.mpr hu
    have hm : mkRequest cl a =
        { url := apiUrl,
          data := mkData a ++ [("image.url", .str a.image_url)],
          files := [], auth := (cl.api_id, cl.api_secret) } := by
      unfold mkRequest; rw [e1, e2, e3]; simp
    rw [hm]
    exact ⟨rfl, rfl, rfl⟩

theorem C2_witness_thm :
    buildRequest ⟨"id", "secret"⟩
      { image_path := "a.jpg", image_base64 := "yyy",
        image_url := "http://example.com/i.jpg" } =
      .ok (mkRequest ⟨"id", "secret"⟩
        { image_path := "a.jpg", image_base64 := "yyy",
          image_url := "http://example.com/i.jpg" }) :=
  (C2_source_precedence ⟨"id", "secret"⟩
    { image_path := "a.jpg", image_base64 := "yyy",
      image_url := "http://example.com/i.jpg" }
    ⟨rfl, (fun c h => nomatch h), rfl, (fun s h => nomatch h), rfl, rfl, rfl⟩
    (by decide)).1

theorem ofClass_rmatch (L : List Char) (x : List Char) :
    (ofClass L).rmatch x ↔ ∃ c ∈ L, x = [c] := by
  induction L with
  | nil => simp [ofClass]
  | cons c cs ih =>
    rw [show ofClass (c :: cs) = char c + ofClass cs from rfl,
      add_rmatch_iff, char_rmatch_iff, ih]
    constructor
    · rintro (h | ⟨d, hd, hx⟩)
      · exact ⟨c, List.mem_cons_self _ _, h⟩
      · exact ⟨d, List.mem_cons_of_mem _ hd, hx⟩
    · rintro ⟨d, hd, hx⟩
      rcases List.mem_cons.mp hd with h | h
      · subst h; exact Or.inl hx
      · exact Or.inr ⟨d, h, hx⟩

theorem flatten_map_singleton (x : List Char) :
    (x.map (fun c => [c])).flatten = x := by
  induction x with
  | nil => rfl
  | cons c cs ih => simp [ih]

theorem star_ofClass_rmatch (L : List Char) (x : List Char) :
    (star (ofClass L)).rmatch x ↔ ∀ c ∈ x, c ∈ L := by
  rw [star_rmatch_iff]
  constructor
  · rintro ⟨S, rfl, hS⟩ c hc
    rcases List.mem_flatten.mp hc with ⟨t, htS, hct⟩
    obtain ⟨-, ht⟩ := hS t htS
    obtain ⟨d, hd, rfl⟩ := (ofClass_rmatch L t).mp ht
    rw [List.mem_singleton.mp hct]
    exact hd
  · intro h
    refine ⟨x.map (fun c => [c]), (flatten_map_singleton x).symm, ?_⟩
    intro t ht
    rcases List.mem_map.mp ht with ⟨c, hcx, rfl⟩
    exact ⟨by simp, (ofClass_rmatch L [c]).mpr ⟨c, h c hcx, rfl⟩⟩

theorem rep1_ofClass_rmatch (L : List Char) (x : List Char) :
    (rep1 (ofClass L)).rmatch x ↔ x ≠ [] ∧ ∀ c ∈ x, c ∈ L := by
  unfold rep1
  rw [mul_rmatch_iff]
  constructor
  · rintro ⟨t, u, rfl, ht, hu⟩
    obtain ⟨c, hcL, rfl⟩ := (ofClass_rmatch L t).mp ht
    have hu2 := (star_ofClass_rmatch L u).mp hu
    refine ⟨by simp, ?_⟩
    intro d hd
    rcases List.mem_cons.mp hd with h | hdu
    · subst h; exact hcL
    · exact hu2 d hdu
  · rintro ⟨hne, h⟩
    rcases x with _ | ⟨c, u⟩
    · exact absurd rfl hne
    · exact ⟨[c], u, rfl, (ofClass_rmatch L [c]).mpr ⟨c, h c (by simp), rfl⟩,
        (star_ofClass_rmatch L u).mpr (fun d hd => h d (by simp [hd]))⟩

theorem hexRegex_rmatch (x : List Char) :
    hexRegex.rmatch x ↔ hexSpecL x = true := by
  constructor
  · intro h
    rw [hexRegex, mul_rmatch_iff] at h
    obtain ⟨t, u, hx, ht, hu⟩ := h
    rw [char_rmatch_iff] at ht
    subst ht
    rw [mul_rmatch_iff] at hu
    obtain ⟨t1, u1, hu1, h1, hr1⟩ := hu
    obtain ⟨c1, hm1, rfl⟩ := (ofClass_rmatch _ _).mp h1
    rw [mul_rmatch_iff] at hr1
    obtain ⟨t2, u2, hu2, h2, hr2⟩ := hr1
    obtain ⟨c2, hm2, rfl⟩ := (ofClass_rmatch _ _).mp h2
    rw [mul_rmatch_iff] at hr2
    obtain ⟨t3, u3, hu3, h3, hr3⟩ := hr2
    obtain ⟨c3, hm3, rfl⟩ := (ofClass_rmatch _ _).mp h3
    rw [mul_rmatch_iff] at hr3
    obtain ⟨t4, u4, hu4, h4, hr4⟩ := hr3
    obtain ⟨c4, hm4, rfl⟩ := (ofClass_rmatch _ _).mp h4
    rw [mul_rmatch_iff] at hr4
    obtain ⟨t5, u5, hu5, h5, h6⟩ := hr4
    obtain ⟨c5, hm5, rfl⟩ := (ofClass_rmatch _ _).mp h5
    obtain ⟨c6, hm6, rfl⟩ := (ofClass_rmatch _ _).mp h6
    subst hu5; subst hu4; subst hu3; subst hu2; subst hu1; subst hx
    simp [hexSpecL, List.elem_iff, hm1, hm2, hm3, hm4, hm5, hm6]
  · intro h
    rcases x with _ | ⟨c, rest⟩
    · simp [hexSpecL] at h
    · unfold hexSpecL at h
      rw [Bool.and_eq_true, Bool.and_eq_true] at h
      obtain ⟨hc, hlen, hall⟩ := h
      rw [beq_iff_eq] at hc
      subst hc
      rw [beq_iff_eq] at hlen
      have hmem : ∀ d ∈ rest, d ∈ hexChars := by
        intro d hd
        have := List.all_eq_true.mp hall d hd
        exact List.elem_iff.mp this
      rcases rest with _ | ⟨c1, rest⟩; · simp at hlen
      rcases rest with _ | ⟨c2, rest⟩; · simp at hlen
      rcases rest with _ | ⟨c3, rest⟩; · simp at hlen
      rcases rest with _ | ⟨c4, rest⟩; · simp at hlen
      rcases rest with _ | ⟨c5, rest⟩; · simp at hlen
      rcases rest with _ | ⟨c6, rest⟩; · simp at hlen
      have hr0 : rest.length = 0 := by
        simp only [List.length_cons] at hlen
        omega
      have : rest = [] := List.length_eq_zero.mp hr0
      subst this
      rw [hexRegex, mul_rmatch_iff]
      refine ⟨['#'], [c1, c2, c3, c4, c5, c6], rfl,
        (char_rmatch_iff _ _).mpr rfl, ?_⟩
      rw [mul_rmatch_iff]
      refine ⟨[c1], [c2, c3, c4, c5, c6], rfl,
        (ofClass_rmatch _ _).mpr ⟨c1, hmem c1 (by simp), rfl⟩, ?_⟩
      rw [mul_rmatch_iff]
      refine ⟨[c2], [c3, c4, c5, c6], rfl,
        (ofClass_rmatch _ _).mpr ⟨c2, hmem c2 (by simp), rfl⟩, ?_⟩
      rw [mul_rmatch_iff]
      refine ⟨[c3], [c4, c5, c6], rfl,
        (ofClass_rmatch _ _).mpr ⟨c3, hmem c3 (by simp), rfl⟩, ?_⟩
      rw [mul_rmatch_iff]
      refine ⟨[c4], [c5, c6], rfl,
        (ofClass_rmatch _ _).mpr ⟨c4, hmem c4 (by simp), rfl⟩, ?_⟩
      rw [mul_rmatch_iff]
      exact ⟨[c5], [c6], rfl,
        (ofClass_rmatch _ _).mpr ⟨c5, hmem c5 (by simp), rfl⟩,
        (ofClass_rmatch _ _).mpr ⟨c6, hmem c6 (by simp), rfl⟩⟩

theorem cssTok_rmatch (x : List Char) :
    cssTok.rmatch x ↔ CssTokenSpec x := by
  unfold cssTok CssTokenSpec
  rw [add_rmatch_iff]
  constructor
  · rintro (h | h)
    · right
      rw [mul_rmatch_iff] at h
      obtain ⟨t, u, rfl, ht, hu⟩ := h
      obtain ⟨ht1, ht2⟩ := (rep1_ofClass_rmatch _ _).mp ht
      rw [mul_rmatch_iff] at hu
      obtain ⟨v, w, rfl, hv, hw⟩ := hu
      rw [char_rmatch_iff] at hv; subst hv
      rw [mul_rmatch_iff] at hw
      obtain ⟨d2, e2, rfl, hd2, he2⟩ := hw
      obtain ⟨hd1, hdd⟩ := (rep1_ofClass_rmatch _ _).mp hd2
      rw [char_rmatch_iff] at he2; subst he2
      exact ⟨t, d2, ht1, hd1, ht2, hdd, by simp⟩
    · left
      rw [mul_rmatch_iff] at h
      obtain ⟨t, u, rfl, ht, hu⟩ := h
      obtain ⟨ht1, ht2⟩ := (rep1_ofClass_rmatch _ _).mp ht
      rw [mul_rmatch_iff] at hu
      obtain ⟨v, w, rfl, hv, hw⟩ := hu
      rw [char_rmatch_iff] at hv; subst hv
      rw [char_rmatch_iff] at hw; subst hw
      exact ⟨t, ht1, ht2, by simp⟩
  · rintro (⟨ds, hne, hdig, rfl⟩ | ⟨ds1, ds2, h1, h2, hd1, hd2, rfl⟩)
    · right
      rw [mul_rmatch_iff]
      refine ⟨ds, ['p', 'x'], rfl,
        (rep1_ofClass_rmatch _ _).mpr ⟨hne, hdig⟩, ?_⟩
      rw [mul_rmatch_iff]
      exact ⟨['p'], ['x'], rfl, (char_rmatch_iff _ _).mpr rfl,
        (char_rmatch_iff _ _).mpr rfl⟩
    · left
      rw [mul_rmatch_iff]
      refine ⟨ds1, '.' :: (ds2 ++ ['%']), rfl,
        (rep1_ofClass_rmatch _ _).mpr ⟨h1, hd1⟩, ?_⟩
      rw [mul_rmatch_iff]
      refine ⟨['.'], ds2 ++ ['%'], rfl, (char_rmatch_iff _ _).mpr rfl, ?_⟩
      rw [mul_rmatch_iff]
      exact ⟨ds2, ['%'], rfl, (rep1_ofClass_rmatch _ _).mpr ⟨h2, hd2⟩,
        (char_rmatch_iff _ _).mpr rfl⟩

theorem wsTok_rmatch (s : List Char) :
    (wsSep * cssTok).rmatch s ↔
      ∃ g t, g ≠ [] ∧ (∀ c ∈ g, c ∈ wsChars) ∧ CssTokenSpec t ∧
        s = g ++ t := by
  rw [mul_rmatch_iff]
  constructor
  · rintro ⟨g, t, rfl, hg, ht⟩
    obtain ⟨hg1, hg2⟩ := (rep1_ofClass_rmatch _ _).mp hg
    exact ⟨g, t, hg1, hg2, (cssTok_rmatch t).mp ht, rfl⟩
  · rintro ⟨g, t, hg1, hg2, ht, rfl⟩
    exact ⟨g, t, rfl, (rep1_ofClass_rmatch _ _).mpr ⟨hg1, hg2⟩,
      (cssTok_rmatch t).mpr ht⟩

theorem cssTokens_one_inv (x : List Char) (h : CssTokens 1 x) :
    CssTokenSpec x := by
  cases h with
  | single t ht => exact ht
  | cons t g rest n ht hg hw h2 => cases h2

theorem cssTokens_succ_inv (x : List Char) (n : Nat)
    (h : CssTokens (n + 2) x) :
    ∃ t g rest, CssTokenSpec t ∧ g ≠ [] ∧ (∀ c ∈ g, c ∈ wsChars) ∧
      CssTokens (n + 1) rest ∧ x = t ++ (g ++ rest) := by
  cases h with
  | cons t g rest m ht hg hw h2 => exact ⟨t, g, rest, ht, hg, hw, h2, rfl⟩

theorem wsTok_chunk (g t : List Char) (hg : g ≠ [])
    (hw : ∀ c ∈ g, c ∈ wsChars) (ht : CssTokenSpec t) :
    (wsSep * cssTok).rmatch (g ++ t) :=
  (wsTok_rmatch _).mpr ⟨g, t, hg, hw, ht, rfl⟩

theorem cssRegex_rmatch (x : List Char) :
    cssRegex.rmatch x ↔ ∃ n, 1 ≤ n ∧ n ≤ 4 ∧ CssTokens n x := by
  unfold cssRegex rep03
  rw [mul_rmatch_iff]
  constructor
  · rintro ⟨t1, r, rfl, ht1, hr⟩
    replace ht1 := (cssTok_rmatch t1).mp ht1
    rw [add_rmatch_iff, one_rmatch_iff] at hr
    rcases hr with rfl | hr
    · exact ⟨1, le_refl 1, by norm_num, by simpa using CssTokens.single t1 ht1⟩
    · rw [mul_rmatch_iff] at hr
      obtain ⟨s1, r, rfl, hs1, hr⟩ := hr
      obtain ⟨g1, t2, hg1, hw1, ht2, rfl⟩ := (wsTok_rmatch s1).mp hs1
      rw [add_rmatch_iff, one_rmatch_iff] at hr
      rcases hr with rfl | hr
      · refine ⟨2, by norm_num, by norm_num, ?_⟩
        have := CssTokens.cons t1 g1 t2 1 ht1 hg1 hw1
          (CssTokens.single t2 ht2)
        simpa [List.append_assoc] using this
      · rw [mul_rmatch_iff] at hr
        obtain ⟨s2, r, rfl, hs2, hr⟩ := hr
        obtain ⟨g2, t3, hg2, hw2, ht3, rfl⟩ := (wsTok_rmatch s2).mp hs2
        rw [add_rmatch_iff, one_rmatch_iff] at hr
        rcases hr with rfl | hr
        · refine ⟨3, by norm_num, by norm_num, ?_⟩
          have := CssTokens.cons t1 g1 (t2 ++ (g2 ++ t3)) 2 ht1 hg1 hw1
            (CssTokens.cons t2 g2 t3 1 ht2 hg2 hw2 (CssTokens.single t3 ht3))
          simpa [List.append_assoc] using this
        · obtain ⟨g3, t4, hg3, hw3, ht4, rfl⟩ := (wsTok_rmatch r).mp hr
          refine ⟨4, by norm_num, by norm_num, ?_⟩
          have := CssTokens.cons t1 g1 (t2 ++ (g2 ++ (t3 ++ (g3 ++ t4)))) 3
            ht1 hg1 hw1
            (CssTokens.cons t2 g2 (t3 ++ (g3 ++ t4)) 2 ht2 hg2 hw2
              (CssTokens.cons t3 g3 t4 1 ht3 hg3 hw3
                (CssTokens.single t4 ht4)))
          simpa [List.append_assoc] using this
  · rintro ⟨n, h1, h4, h⟩
    interval_cases n
    · have ht := cssTokens_one_inv x h
      exact ⟨x, [], by simp, (cssTok_rmatch x).mpr ht, by
        rw [add_rmatch_iff, one_rmatch_iff]; exact Or.inl rfl⟩
    · obtain ⟨t1, g1, r1, ht1, hg1, hw1, h2, rfl⟩ := cssTokens_succ_inv x 0 h
      have ht2 := cssTokens_one_inv r1 h2
      refine ⟨t1, g1 ++ r1, rfl, (cssTok_rmatch t1).mpr ht1, ?_⟩
      rw [add_rmatch_iff, one_rmatch_iff]
      refine Or.inr ?_
      rw [mul_rmatch_iff]
      refine ⟨g1 ++ r1, [], by simp, wsTok_chunk g1 r1 hg1 hw1 ht2, ?_⟩
      rw [add_rmatch_iff, one_rmatch_iff]; exact Or.inl rfl
    · obtain ⟨t1, g1, r1, ht1, hg1, hw1, h2, rfl⟩ := cssTokens_succ_inv x 1 h
      obtain ⟨t2, g2, r2, ht2, hg2, hw2, h3, rfl⟩ :=
        cssTokens_succ_inv r1 0 h2
      have ht3 := cssTokens_one_inv r2 h3
      refine ⟨t1, g1 ++ (t2 ++ (g2 ++ r2)), rfl,
        (cssTok_rmatch t1).mpr ht1, ?_⟩
      rw [add_rmatch_iff, one_rmatch_iff]
      refine Or.inr ?_
      rw [mul_rmatch_iff]
      refine ⟨g1 ++ t2, g2 ++ r2, by simp, wsTok_chunk g1 t2 hg1 hw1 ht2, ?_⟩
      rw [add_rmatch_iff, one_rmatch_iff]
      refine Or.inr ?_
      rw [mul_rmatch_iff]
      refine ⟨g2 ++ r2, [], by simp, wsTok_chunk g2 r2 hg2 hw2 ht3, ?_⟩
      rw [add_rmatch_iff, one_rmatch_iff]; exact Or.inl rfl
    · obtain ⟨t1, g1, r1, ht1, hg1, hw1, h2, rfl⟩ := cssTokens_succ_inv x 2 h
      obtain ⟨t2, g2, r2, ht2, hg2, hw2, h3, rfl⟩ :=
        cssTokens_succ_inv r1 1 h2
      obtain ⟨t3, g3, r3, ht3, hg3, hw3, h5, rfl⟩ :=
        cssTokens_succ_inv r2 0 h3
      have ht4 := cssTokens_one_inv r3 h5
      refine ⟨t1, g1 ++ (t2 ++ (g2 ++ (t3 ++ (g3 ++ r3)))), rfl,
        (cssTok_rmatch t1).mpr ht1, ?_⟩
      rw [add_rmatch_iff, one_rmatch_iff]
      refine Or.inr ?_
      rw [mul_rmatch_iff]
      refine ⟨g1 ++ t2, g2 ++ (t3 ++ (g3 ++ r3)), by simp,
        wsTok_chunk g1 t2 hg1 hw1 ht2, ?_⟩
      rw [add_rmatch_iff, one_rmatch_iff]
      refine Or.inr ?_
      rw [mul_rmatch_iff]
      refine ⟨g2 ++ t3, g3 ++ r3, by simp,
        wsTok_chunk g2 t3 hg2 hw2 ht3, ?_⟩
      rw [add_rmatch_iff, one_rmatch_iff]
      refine Or.inr ?_
      exact wsTok_chunk g3 r3 hg3 hw3 ht4

theorem pyMatchAnchored_hex_iff (s : String) :
    pyMatchAnchored hexRegex s = true ↔
      (hexSpecL s.data = true ∨
        (s.data.getLast? = some '\n' ∧ hexSpecL s.data.dropLast = true)) := by
  unfold pyMatchAnchored
  rw [Bool.or_eq_true, Bool.and_eq_true, beq_iff_eq]
  constructor
  · rintro (h | ⟨h1, h2⟩)
    · exact Or.inl ((hexRegex_rmatch _).mp h)
    · exact Or.inr ⟨h1, (hexRegex_rmatch _).mp h2⟩
  · rintro (h | ⟨h1, h2⟩)
    · exact Or.inl ((hexRegex_rmatch _).mpr h)
    · exact Or.inr ⟨h1, (hexRegex_rmatch _).mpr h2⟩

/-- C5, counterexample: the string of a hash sign, six hexadecimal digits
and one trailing newline is accepted by validate_hex although it is not of
the claimed form hash-sign-then-exactly-six-hex-digits, because re.match
with a dollar anchor also matches just before a trailing newline. -/
theorem C5_counterexample_thm :
    validate_hex "background_color" "#AABBCC\n" = .ok ()
    ∧ hexSpecL "#AABBCC\n".data = false := ⟨rfl, rfl⟩

/-- C5, amended: validate_hex accepts a string if and only if it is a hash
sign followed by exactly six hexadecimal digits, case ignored, optionally
followed by one trailing newline; on rejection it raises a
ValueError-kind error; in particular it accepts the string hash AABBCC and
rejects ZZZZZZ and hash 12345. -/
theorem C5_hex_grammar_amended :
    (∀ name s, validate_hex name s = .ok () ↔
      (hexSpecL s.data = true ∨
        (s.data.getLast? = some '\n' ∧ hexSpecL s.data.dropLast = true)))
    ∧ (∀ name s, validate_hex name s ≠ .ok () →
        validate_hex name s = .error (.valueError
          ("Invalid value: " ++ name ++ ". Hex color code provided: " ++ s)))
    ∧ validate_hex "background_color" "#AABBCC" = .ok ()
    ∧ validate_hex "background_color" "ZZZZZZ" ≠ .ok ()
    ∧ validate_hex "background_color" "#12345" ≠ .ok () := by
  refine ⟨?_, ?_, rfl, by decide, by decide⟩
  · intro name s
    unfold validate_hex
    cases h : pyMatchAnchored hexRegex s with
    | false =>
      rw [← pyMatchAnchored_hex_iff]
      simp [h]
    | true =>
      rw [← pyMatchAnchored_hex_iff]
      simp [h]
  · intro name s hne
    unfold validate_hex at *
    cases h : pyMatchAnchored hexRegex s with
    | false => simp [h]
    | true => simp [h] at hne

/-- C6: validate_css accepts a string if and only if it is one to four
whitespace-separated tokens, each an integer followed by px or a decimal
number, digits point digits, followed by a percent sign; on rejection it
raises a ValueError-kind error; in particular it accepts 1px 2px 3px 4px
and rejects the five-token 10px 20px 30px 40px 50px. -/
theorem C6_css_grammar (name s : String) :
    (validate_css name s = .ok () ↔ CssSpec s)
    ∧ (validate_css name s ≠ .ok () →
        validate_css name s = .error (.valueError
          ("Invalid value: " ++ name ++ ". CSS size provided: " ++ s)))
    ∧ validate_css "result_margin" "1px 2px 3px 4px" = .ok ()
    ∧ validate_css "result_margin" "10px 20px 30px 40px 50px" ≠ .ok () := by
  refine ⟨?_, ?_, rfl, by decide⟩
  · unfold validate_css CssSpec
    cases h : cssRegex.rmatch s.data with
    | false =>
      rw [show (∃ n, 1 ≤ n ∧ n ≤ 4 ∧ CssTokens n s.data) ↔
          (cssRegex.rmatch s.data = true) from (cssRegex_rmatch s.data).symm]
      simp [h]
    | true =>
      rw [show (∃ n, 1 ≤ n ∧ n ≤ 4 ∧ CssTokens n s.data) ↔
          (cssRegex.rmatch s.data = true) from (cssRegex_rmatch s.data).symm]
      simp [h]
  · intro hne
    unfold validate_css at *
    cases h : cssRegex.rmatch s.data with
    | false => simp [h]
    | true => simp [h] at hne
